import Mathlib

/-!
Verification development for the Odemis acquisition framework.

Shallow embedding of the core components, translated from the source:
 - `ProgressiveFuture` progress reporting and cancellation
   (src/odemis/gui/acqmng.py, class ProgressiveFuture);
 - the multi-stream acquisition task (src/odemis/gui/acqmng.py,
   AcquisitionTask.run together with _executeTask);
 - the PVCam device acquisition loop
   (src/odemis/driver/pvcam.py, PVCam._acquire_thread_run);
 - the Delphi calibration helpers
   (src/odemis/acq/align/delphi.py: _CancelUpdateConversion,
   estimateOffsetTime, estimateHoleDetectionTime, _DoHoleDetection).

Wall-clock times and durations are modelled as rationals (reals for the
logarithmic step estimators); machine floats are idealised as exact
arithmetic.  Hardware and image processing are abstracted as inputs:
the values they would deliver are parameters of the embedded functions.
-/

namespace Odemis

/- ===== ProgressiveFuture (src/odemis/gui/acqmng.py) ===== -/

/-- States of a concurrent.futures Future as used by acqmng.py
(PENDING, RUNNING, CANCELLED, CANCELLED_AND_NOTIFIED, FINISHED). -/
inductive FState
  | pending
  | running
  | cancelled
  | cancelledAndNotified
  | finished
  deriving DecidableEq

/-- ProgressiveFuture._report_update: computes the (past, left) pair passed to
one progress subscriber, from the future state, its start and end time
estimates, and the current wall-clock time.  Mirrors acqmng.py lines 340-365:
terminal states report (end - start, 0); PENDING forces past to -1e-9 when it
would be nonnegative and clamps left at 0; RUNNING clamps left at 0. -/
def report_update (state : FState) (startTime endTime now : ℚ) : ℚ × ℚ :=
  if state = .cancelled ∨ state = .cancelledAndNotified ∨ state = .finished then
    (endTime - startTime, 0)
  else if state = .pending then
    let past0 := now - startTime
    let left0 := endTime - now
    let past := if 0 ≤ past0 then -(1 / 1000000000 : ℚ) else past0
    let left := if left0 < 0 then 0 else left0
    (past, left)
  else
    let past := now - startTime
    let left0 := endTime - now
    let left := if left0 < 0 then 0 else left0
    (past, left)

/-- ProgressiveFuture, restricted to the fields cancel() reads and writes.
`taskCanceller = some r` models a registered canceller callback whose call
returns `r`; `none` models `task_canceller = None`. -/
structure PFuture where
  state : FState
  startTime : ℚ
  endTime : ℚ
  taskCanceller : Option Bool
  deriving DecidableEq

/-- Observable outcome of ProgressiveFuture.cancel(): the returned boolean,
the state left in the future, whether the registered canceller was invoked,
and the (past, left) progress report delivered to each update subscriber by
the final _invoke_upd_callbacks (none when no update notification happens). -/
structure CancelResult where
  returned : Bool
  stateAfter : FState
  cancellerInvoked : Bool
  notification : Option (ℚ × ℚ)
  deriving DecidableEq

/-- ProgressiveFuture.cancel (acqmng.py lines 413-439).  FINISHED returns
False; already-cancelled returns True; RUNNING without a canceller returns
False; RUNNING with a canceller invokes it, discards its return value, then
falls through to the unconditional transition to CANCELLED, notification of
update subscribers, and `return True`; PENDING goes straight to CANCELLED. -/
def cancel (f : PFuture) (now : ℚ) : CancelResult :=
  if f.state = .finished then
    ⟨false, f.state, false, none⟩
  else if f.state = .cancelled ∨ f.state = .cancelledAndNotified then
    ⟨true, f.state, false, none⟩
  else if f.state = .running then
    match f.taskCanceller with
    | none => ⟨false, f.state, false, none⟩
    | some _ =>
        ⟨true, .cancelled, true,
          some (report_update .cancelled f.startTime f.endTime now)⟩
  else
    ⟨true, .cancelled, false,
      some (report_update .cancelled f.startTime f.endTime now)⟩

/- ===== Multi-stream acquisition task (src/odemis/gui/acqmng.py) ===== -/

/-- An acquisition stream as seen by AcquisitionTask: a display name, the
estimated acquisition time returned by estimateAcquisitionTime(), and the raw
data units (abstracted as strings) it delivers when acquired. -/
structure AcqStream where
  name : String
  estimate : ℚ
  raw : List String
  deriving DecidableEq

/-- Sum of the per-stream estimated acquisition times
(numpy.sum(self._streamTimes.values()) in AcquisitionTask.run). -/
def sumEstimates (ss : List AcqStream) : ℚ :=
  (ss.map (fun s => s.estimate)).sum

/-- One pass of the loop body of AcquisitionTask.run (acqmng.py lines
247-274), over the ordered stream list.  `cancelAt = some i` means the user
cancelled the future while the task was blocked on `self._condition.wait()`
for the stream of index `i` — the wait then returns with `_cancelled` set and
the task raises CancelledError (`.error ()`).  Otherwise the stream's data is
collected, each unit tagged with the stream name (MD_DESCRIPTION), the
running `expected_time` is decremented by the stream's estimate, and the new
end-time estimate pushed by set_end_time is appended to the trace. -/
def acquireGo :
    List AcqStream → Option Nat → Nat → ℚ → List (String × String) → List ℚ →
      Except Unit (List (String × String)) × List ℚ
  | [], _, _, _, acc, trace => (.ok acc, trace)
  | s :: rest, cancelAt, idx, expTime, acc, trace =>
    if cancelAt = some idx then
      (.error (), trace)
    else
      let tagged := s.raw.map (fun d => (d, s.name))
      let expTime2 := expTime - s.estimate
      acquireGo rest cancelAt (idx + 1) expTime2 (acc ++ tagged) (trace ++ [expTime2])

/-- AcquisitionTask.run (acqmng.py lines 227-278): seeds `expected_time` with
the summed estimates, immediately pushes that as the first end-time estimate
(set_end_time at line 245), then acquires the streams in order.  Returns the
CancelledError-or-result of the run and the trace of expected-time values
pushed to the future. -/
def taskRun (streams : List AcqStream) (cancelAt : Option Nat) :
    Except Unit (List (String × String)) × List ℚ :=
  let total := sumEstimates streams
  acquireGo streams cancelAt 0 total [] [total]

/-- startAcquisition composed with _executeTask (acqmng.py lines 52-76 and
157-173): the task thread runs `taskRun`.  When the run raises CancelledError
the exception is swallowed by _executeTask and neither set_result nor
set_exception is called; the CANCELLED state was already installed by
ProgressiveFuture.cancel — invoked by the requester on the running future,
whose task_canceller (= task.cancel) is registered.  On normal completion
set_result installs the data list and the future finishes. -/
def startAcquisitionRun (streams : List AcqStream) (cancelAt : Option Nat)
    (startT endT now : ℚ) : FState × Option (List (String × String)) :=
  match (taskRun streams cancelAt).1 with
  | .error _ => ((cancel ⟨.running, startT, endT, some true⟩ now).stateAfter, none)
  | .ok r => (.finished, some r)

/- ===== PVCam device acquisition loop (src/odemis/driver/pvcam.py) ===== -/

/-- Environment outcome of one iteration of PVCam._acquire_thread_run:
the stop flag is observed during the 80%-of-duration cooperative wait
(`stopAt80`), the stop flag is observed during the bounded 10 ms status-poll
wait (`stopAtPoll`), the iteration ends in an IOError/PVCamError transient
fault — poll timeout or unexpected status (`fault`) — or the exposure reaches
READOUT_COMPLETE (`success`). -/
inductive IterEvent
  | stopAt80
  | stopAtPoll
  | fault
  | success
  deriving DecidableEq

/-- Driver-side state carried across iterations of the acquire loop:
the transient-fault retry counter, the need_reinit flag, whether an exposure
is currently in progress on the hardware, and whether an acquisition sequence
buffer (cbuffer) is allocated. -/
structure CamState where
  retries : Nat
  needReinit : Bool
  exposing : Bool
  buffer : Bool
  deriving DecidableEq

/-- State at thread entry: need_reinit = True, retries = 0, no exposure in
flight, no buffer allocated (pvcam.py lines 964-966). -/
def initCam : CamState := ⟨0, true, false, false⟩

/-- The settings-recommit path at the top of the loop body (pvcam.py lines
970-1012), taken when need_reinit is set (no external setting change is
modelled, so _need_update_settings() is False in steady state): abort any
in-flight exposure, finish and re-arm the acquisition sequence, leaving a
fresh buffer allocated. -/
def reinit (st : CamState) : CamState :=
  if st.needReinit then
    { retries := st.retries, needReinit := false, exposing := false, buffer := true }
  else st

/-- How the acquire loop terminated: the stop flag was already set at the
`while not acquire_must_stop` check (scriptEnd), a `break` on an observed
stop request (stopBreak), or the re-raise after too many failures
(fatalRaise). -/
inductive ExitKind
  | scriptEnd
  | stopBreak
  | fatalRaise
  deriving DecidableEq

/-- Result of a run of the acquire loop: how many times the delivery callback
was invoked, how the loop exited, and the driver state at exit (which the
`finally` teardown then acts on). -/
structure LoopResult where
  callbacks : Nat
  exit : ExitKind
  final : CamState
  deriving DecidableEq

/-- PVCam._acquire_thread_run main loop (pvcam.py lines 968-1067) over a
script of per-iteration events.  Each iteration re-commits settings if
needed, starts an exposure (pl_exp_start_seq), then: a stop observed at
either wait breaks out; a transient fault first checks `retries > 5` and
re-raises (fatal) when exceeded, otherwise aborts the exposure, increments
retries, forces reinit and continues; a success delivers the frame via the
callback and resets retries to 0. -/
def acquireLoop : List IterEvent → CamState → Nat → LoopResult
  | [], st, cbs => ⟨cbs, .scriptEnd, st⟩
  | e :: rest, st0, cbs =>
    let st1 := reinit st0
    let st2 := { st1 with exposing := true }
    match e with
    | .stopAt80 => ⟨cbs, .stopBreak, st2⟩
    | .stopAtPoll => ⟨cbs, .stopBreak, st2⟩
    | .fault =>
      if st2.retries > 5 then ⟨cbs, .fatalRaise, st2⟩
      else acquireLoop rest
        { st2 with retries := st2.retries + 1, needReinit := true, exposing := false } cbs
    | .success =>
      acquireLoop rest { st2 with retries := 0, exposing := false } (cbs + 1)

/-- Whether an iteration event is an observed stop request. -/
def isStop : IterEvent → Bool
  | .stopAt80 => true
  | .stopAtPoll => true
  | _ => false

/-- Actions of the `finally` teardown block (pvcam.py lines 1070-1093) as a
function of the state at loop exit: pl_exp_abort runs when the status still
reports an exposure in progress, pl_exp_finish_seq runs when a buffer is
allocated, and pl_exp_uninit_seq and the acquisition-lock release run
unconditionally. -/
structure Teardown where
  abortAttempted : Bool
  seqFinished : Bool
  seqUninit : Bool
  lockReleased : Bool
  deriving DecidableEq

/-- Teardown performed for a given exit state. -/
def teardownOf (st : CamState) : Teardown :=
  ⟨st.exposing, st.buffer, true, true⟩

/- ===== Delphi calibration (src/odemis/acq/align/delphi.py) ===== -/

/-- Error margin in hole and spot detection: ERR_MARGIN = 30e-06 (delphi.py
line 41). -/
noncomputable def ERR_MARGIN : ℝ := 30 / 1000000

/-- Maximum number of centering steps: MAX_STEPS = 10 (delphi.py line 42). -/
def MAX_STEPS : ℕ := 10

/-- estimateOffsetTime (delphi.py lines 365-376): with no distance the step
count is MAX_STEPS; with a distance it is log(dist / ERR_MARGIN) / log 2
clamped from above by MAX_STEPS; the duration is steps * (et + 2).  The
float transcendentals are idealised as real-number arithmetic. -/
noncomputable def estimateOffsetTime (et : ℝ) (dist : Option ℝ) : ℝ :=
  match dist with
  | none => (MAX_STEPS : ℝ) * (et + 2)
  | some d =>
    min (Real.log (d / ERR_MARGIN) / Real.log 2) (MAX_STEPS : ℝ) * (et + 2)

/-- estimateHoleDetectionTime (delphi.py lines 653-664): textually the same
computation as estimateOffsetTime. -/
noncomputable def estimateHoleDetectionTime (et : ℝ) (dist : Option ℝ) : ℝ :=
  match dist with
  | none => (MAX_STEPS : ℝ) * (et + 2)
  | some d =>
    min (Real.log (d / ERR_MARGIN) / Real.log 2) (MAX_STEPS : ℝ) * (et + 2)

/-- Task state values used by the conversion-update future
(concurrent.futures RUNNING / CANCELLED / FINISHED). -/
inductive TaskState
  | running
  | cancelled
  | finished
  deriving DecidableEq

/-- The fields of the conversion-update ProgressiveFuture that the canceller
_CancelUpdateConversion touches: `_conversion_update_state` and, for each of
the three sub-task futures (`_hole_detectionf`, `_align_offsetf`,
`_rotation_scalingf`), whether its cancel() has been invoked. -/
structure ConvFuture where
  conversionUpdateState : TaskState
  holeDetectionCancelled : Bool
  alignOffsetCancelled : Bool
  rotationScalingCancelled : Bool
  deriving DecidableEq

/-- Observable outcome of _CancelUpdateConversion: the returned boolean, the
future's fields afterwards, and the timeout (in seconds) passed to the wait
on the `_done` completion event (none when no wait happens). -/
structure ConvCancelResult where
  returned : Bool
  fut : ConvFuture
  doneWaitTimeout : Option ℚ
  deriving DecidableEq

/-- _CancelUpdateConversion (delphi.py lines 217-234): under the conversion
lock, a FINISHED task makes it return False untouched; otherwise the state is
set to CANCELLED, the cancellers of all three sub-task futures are invoked
unconditionally, then (outside the lock) it waits on the `_done` event with a
10 second timeout and returns True regardless of whether the event fired. -/
def CancelUpdateConversion (f : ConvFuture) : ConvCancelResult :=
  if f.conversionUpdateState = .finished then
    ⟨false, f, none⟩
  else
    ⟨true,
      { conversionUpdateState := .cancelled
        holeDetectionCancelled := true
        alignOffsetCancelled := true
        rotationScalingCancelled := true },
      some 10⟩

/-- A stage position in metres, as an x/y pair (the dicts of delphi.py). -/
structure HolePos where
  x : ℚ
  y : ℚ
  deriving DecidableEq

/-- The module-level EXPECTED_HOLES constant (delphi.py line 40): a tuple of
two mutable position dicts, ((0, 11e-3), (0, -11e-3)). -/
def EXPECTED_HOLES : HolePos × HolePos := (⟨0, 11 / 1000⟩, ⟨0, -(11 / 1000)⟩)

/-- Observable behaviour of one run of _DoHoleDetection: the targets of the
initial moveAbs for each hole, the returned (first_hole, second_hole) pair,
and the contents of the module-level EXPECTED_HOLES tuple after the run. -/
structure HoleDetectionRun where
  moveTargets : List HolePos
  result : HolePos × HolePos
  tableAfter : HolePos × HolePos
  deriving DecidableEq

/-- _DoHoleDetection (delphi.py lines 561-637), hardware abstracted.
`table` is the current contents of the module-level EXPECTED_HOLES tuple;
`holes_found = EXPECTED_HOLES` aliases it without copying.  For each hole the
stage first moves to the table entry for that index; the centering loop and
image processing are abstracted by `found0` / `found1`, the absolute
positions (stage position plus residual offset) the run determines.  Each
found position is written in place into `holes_found[hole]`, i.e. into the
module-level tuple itself, and the returned pair is read back from it. -/
def DoHoleDetection (table : HolePos × HolePos) (found0 found1 : HolePos) :
    HoleDetectionRun :=
  let move0 := table.1
  let t1 : HolePos × HolePos := (found0, table.2)
  let move1 := t1.2
  let t2 : HolePos × HolePos := (t1.1, found1)
  { moveTargets := [move0, move1]
    result := (t2.1, t2.2)
    tableAfter := t2 }

/- ===== Theorems ===== -/

/-- Unfolding of report_update in the PENDING state. -/
theorem report_update_pending (s e n : ℚ) :
    report_update .pending s e n =
      (if 0 ≤ n - s then -(1 / 1000000000 : ℚ) else n - s,
       if e - n < 0 then 0 else e - n) := rfl

/-- Unfolding of report_update in the RUNNING state. -/
theorem report_update_running (s e n : ℚ) :
    report_update .running s e n =
      (n - s, if e - n < 0 then 0 else e - n) := rfl

/-- Claim C3 as written is false: with a registered canceller that reports
failure (returns False), cancel() on a RUNNING future still returns True and
still moves the future to CANCELLED — the canceller's verdict is ignored. -/
theorem cancel_ignores_canceller_result :
    (cancel ⟨.running, 0, 10, some false⟩ 5).returned = true ∧
    (cancel ⟨.running, 0, 10, some false⟩ 5).stateAfter = .cancelled := by
  constructor <;> rfl

/-- Claim C3 (amended): for every RUNNING ProgressiveFuture with a registered
task canceller, cancel() invokes the canceller but discards its result,
unconditionally sets the state to CANCELLED, returns True, and notifies all
progress subscribers once more with remaining = 0. -/
theorem cancel_running_with_canceller (s e now : ℚ) (r : Bool) :
    cancel ⟨.running, s, e, some r⟩ now =
      ⟨true, .cancelled, true, some (e - s, 0)⟩ := rfl

/-- Claim C4: while a ProgressiveFuture is PENDING or RUNNING, every progress
report has remaining at least 0, whatever end-time estimates set_end_time has
installed; and while RUNNING (start time fixed at the actual start, since
set_end_time does not touch it) the reported elapsed value is monotonically
non-decreasing across successive reports. -/
theorem report_progress_invariants (s e1 e2 n1 n2 : ℚ) :
    0 ≤ (report_update .pending s e1 n1).2 ∧
    0 ≤ (report_update .running s e1 n1).2 ∧
    (n1 ≤ n2 →
      (report_update .running s e1 n1).1 ≤ (report_update .running s e2 n2).1) := by
  refine ⟨?_, ?_, ?_⟩
  · rw [report_update_pending]
    dsimp only
    split <;> linarith
  · rw [report_update_running]
    dsimp only
    split <;> linarith
  · intro h
    rw [report_update_running, report_update_running]
    exact sub_le_sub_right h s

/-- Witness for report_progress_invariants at concrete inputs. -/
theorem report_progress_invariants_witness :
    (0 ≤ (report_update .pending 0 2 1).2 ∧
      0 ≤ (report_update .running 0 2 1).2) ∧
    ((1 : ℚ) ≤ 4 ∧
      (report_update .running 0 2 1).1 ≤ (report_update .running 0 3 4).1) :=
  ⟨⟨(report_progress_invariants 0 2 3 1 4).1,
    (report_progress_invariants 0 2 3 1 4).2.1⟩,
   ⟨by norm_num, (report_progress_invariants 0 2 3 1 4).2.2 (by norm_num)⟩⟩

/-- Claim C5 as written is false: a PENDING future whose start time has
passed reports elapsed = -1e-9, which is negative, not clamped at 0. -/
theorem pending_elapsed_negative_example :
    (report_update .pending 0 10 5).1 = -(1 / 1000000000 : ℚ) ∧
    ¬ 0 ≤ (report_update .pending 0 10 5).1 := by
  rw [report_update_pending]
  norm_num

/-- Claim C5 (amended): while the future is still PENDING the elapsed value
delivered to subscribers is always negative — an elapsed that would be
nonnegative is replaced by -1e-9 — so elapsed is reported as a negative time
until start precisely while PENDING; remaining is still clamped at 0. -/
theorem pending_elapsed_clamped_negative (s e n : ℚ) :
    (report_update .pending s e n).1 < 0 ∧
    (0 ≤ n - s → (report_update .pending s e n).1 = -(1 / 1000000000 : ℚ)) ∧
    0 ≤ (report_update .pending s e n).2 := by
  rw [report_update_pending]
  refine ⟨?_, ?_, ?_⟩
  · dsimp only
    split
    · norm_num
    · linarith [not_le.mp (by assumption : ¬ 0 ≤ n - s)]
  · intro h
    dsimp only
    rw [if_pos h]
  · dsimp only
    split <;> linarith

/-- Witness for pending_elapsed_clamped_negative at concrete inputs. -/
theorem pending_elapsed_clamped_negative_witness :
    (report_update .pending 0 10 7).1 < 0 ∧
    ((0 : ℚ) ≤ 7 - 0 ∧
      (report_update .pending 0 10 7).1 = -(1 / 1000000000 : ℚ)) ∧
    0 ≤ (report_update .pending 0 10 7).2 :=
  ⟨(pending_elapsed_clamped_negative 0 10 7).1,
   ⟨by norm_num, (pending_elapsed_clamped_negative 0 10 7).2.1 (by norm_num)⟩,
   (pending_elapsed_clamped_negative 0 10 7).2.2⟩

/-- Helper: a cancellation observed while waiting on a stream whose index is
within the list makes the acquisition body raise CancelledError. -/
theorem acquireGo_cancel_error (ss : List AcqStream) (c : Nat) :
    ∀ (idx : Nat) (t : ℚ) (acc : List (String × String)) (trace : List ℚ),
      idx ≤ c → c < idx + ss.length →
      (acquireGo ss (some c) idx t acc trace).1 = .error () := by
  induction ss with
  | nil =>
    intro idx t acc trace h1 h2
    simp only [List.length_nil, Nat.add_zero] at h2
    omega
  | cons s rest ih =>
    intro idx t acc trace h1 h2
    by_cases hc : c = idx
    · subst hc
      simp [acquireGo]
    · rw [acquireGo, if_neg (by simpa using hc)]
      refine ih (idx + 1) _ _ _ (by omega) ?_
      simp only [List.length_cons] at h2
      omega

/-- Claim C2: if cancellation is requested while the acquisition task is
waiting on a source mid-sequence, the future ends in the Cancelled state and
its result is never set — in particular never to a partial list of the data
already collected. -/
theorem acquisition_cancelled_no_partial_result (streams : List AcqStream)
    (i : Nat) (startT endT now : ℚ) (hi : i < streams.length) :
    startAcquisitionRun streams (some i) startT endT now = (.cancelled, none) := by
  have herr : (taskRun streams (some i)).1 = .error () :=
    acquireGo_cancel_error streams i 0 (sumEstimates streams) [] [sumEstimates streams]
      (Nat.zero_le i) (by simpa using hi)
  unfold startAcquisitionRun
  rw [herr]
  rfl

/-- Witness for acquisition_cancelled_no_partial_result: cancelled while
waiting on the second of three streams. -/
theorem acquisition_cancelled_no_partial_result_witness :
    1 < ([⟨"A", 5, ["dA"]⟩, ⟨"B", 3, ["dB"]⟩, ⟨"C", 2, ["dC"]⟩] : List AcqStream).length ∧
    startAcquisitionRun [⟨"A", 5, ["dA"]⟩, ⟨"B", 3, ["dB"]⟩, ⟨"C", 2, ["dC"]⟩]
      (some 1) 0 10 4 = (.cancelled, none) :=
  ⟨by decide,
   acquisition_cancelled_no_partial_result _ 1 0 10 4 (by decide)⟩

/-- Helper: without cancellation, the trace of end-time estimates pushed by
the acquisition body is the running expected-time after each stream. -/
theorem acquireGo_trace_none (ss : List AcqStream) :
    ∀ (idx : Nat) (t : ℚ) (acc : List (String × String)) (trace : List ℚ),
      (acquireGo ss none idx t acc trace).2 =
        trace ++ (List.range ss.length).map
          (fun k => t - sumEstimates (ss.take (k + 1))) := by
  induction ss with
  | nil =>
    intro idx t acc trace
    simp [acquireGo]
  | cons s rest ih =>
    intro idx t acc trace
    rw [acquireGo, if_neg (by simp)]
    rw [ih]
    rw [List.length_cons, List.range_succ_eq_map]
    rw [List.map_cons, List.map_map, List.append_assoc, List.singleton_append]
    have hhead : t - s.estimate = t - sumEstimates ((s :: rest).take (0 + 1)) := by
      simp [sumEstimates]
    have htail :
        (fun k => t - s.estimate - sumEstimates (rest.take (k + 1))) =
          (fun k => t - sumEstimates ((s :: rest).take (k + 1))) ∘ Nat.succ := by
      funext k
      simp [sumEstimates, List.take_succ_cons, sub_sub]
    rw [htail, ← hhead]

/-- Claim C6: the trace of expected-time values pushed to the future starts
at the sum of the per-stream estimates and loses each stream's estimate
exactly once, ending at 0; concretely, streams with estimates [5, 3, 2]
produce the trace [10, 5, 2, 0]. -/
theorem expected_time_decrements (streams : List AcqStream) :
    (taskRun streams none).2 =
      (List.range (streams.length + 1)).map
        (fun k => sumEstimates streams - sumEstimates (streams.take k)) ∧
    (taskRun streams none).2.getLast? = some 0 ∧
    (taskRun [⟨"A", 5, []⟩, ⟨"B", 3, []⟩, ⟨"C", 2, []⟩] none).2 = [10, 5, 2, 0] := by
  have htrace :
      (taskRun streams none).2 =
        (List.range (streams.length + 1)).map
          (fun k => sumEstimates streams - sumEstimates (streams.take k)) := by
    show (acquireGo streams none 0 (sumEstimates streams) [] [sumEstimates streams]).2 = _
    rw [acquireGo_trace_none]
    rw [List.range_succ_eq_map, List.map_cons, List.map_map]
    rw [List.singleton_append]
    congr 1
    simp [sumEstimates]
  refine ⟨htrace, ?_, ?_⟩
  · rw [htrace, List.range_succ streams.length, List.map_append, List.map_cons,
      List.map_nil, List.getLast?_concat]
    rw [List.take_length, sub_self]
  · simp only [taskRun, acquireGo, sumEstimates]
    simp
    norm_num

/-- Claim C1 as written is false: six consecutive transient faults do not
escalate — the loop is still retrying (the script runs out with a normal
exit), and a subsequent success still delivers a frame. -/
theorem six_faults_do_not_escalate :
    (acquireLoop (List.replicate 6 .fault ++ [.success]) initCam 0).exit = .scriptEnd ∧
    (acquireLoop (List.replicate 6 .fault ++ [.success]) initCam 0).callbacks = 1 := by
  constructor <;> rfl

/-- Claim C1 (amended): a successful frame delivery resets the retry counter
to 0 — three consecutive faults followed by a success deliver the frame and
leave the loop in the normal steady state with retries = 0 — and, because
the `retries > 5` bound is checked before the counter is incremented, it
takes seven consecutive transient faults to escalate to the fatal re-raise,
after which no further callback is delivered. -/
theorem retry_reset_and_seven_fault_escalation (rest : List IterEvent) (cbs : Nat) :
    acquireLoop (.fault :: .fault :: .fault :: .success :: rest) initCam cbs
      = acquireLoop rest ⟨0, false, false, true⟩ (cbs + 1) ∧
    (acquireLoop (List.replicate 7 .fault ++ rest) initCam cbs).exit = .fatalRaise ∧
    (acquireLoop (List.replicate 7 .fault ++ rest) initCam cbs).callbacks = cbs := by
  refine ⟨rfl, rfl, rfl⟩

/-- Step lemma: one loop iteration on an observed stop during the 80% wait. -/
theorem acquireLoop_stop80_step (rest : List IterEvent) (st : CamState) (cbs : Nat) :
    acquireLoop (.stopAt80 :: rest) st cbs =
      ⟨cbs, .stopBreak, { reinit st with exposing := true }⟩ := rfl

/-- Step lemma: one loop iteration on an observed stop during the poll. -/
theorem acquireLoop_stopPoll_step (rest : List IterEvent) (st : CamState) (cbs : Nat) :
    acquireLoop (.stopAtPoll :: rest) st cbs =
      ⟨cbs, .stopBreak, { reinit st with exposing := true }⟩ := rfl

/-- Step lemma: one loop iteration on a transient fault. -/
theorem acquireLoop_fault_step (rest : List IterEvent) (st : CamState) (cbs : Nat) :
    acquireLoop (.fault :: rest) st cbs =
      if (reinit st).retries > 5 then
        ⟨cbs, .fatalRaise, { reinit st with exposing := true }⟩
      else
        acquireLoop rest
          ⟨(reinit st).retries + 1, true, false, (reinit st).buffer⟩ cbs := rfl

/-- Step lemma: one loop iteration on a completed exposure. -/
theorem acquireLoop_success_step (rest : List IterEvent) (st : CamState) (cbs : Nat) :
    acquireLoop (.success :: rest) st cbs =
      acquireLoop rest ⟨0, (reinit st).needReinit, false, (reinit st).buffer⟩
        (cbs + 1) := rfl

/-- Helper: events after an observed stop request are irrelevant — the run
coincides with the run truncated just after the stop event. -/
theorem acquireLoop_stop_trunc (e : IterEvent) (he : isStop e = true)
    (pre : List IterEvent) :
    ∀ (post : List IterEvent) (st : CamState) (cbs : Nat),
      acquireLoop (pre ++ e :: post) st cbs = acquireLoop (pre ++ [e]) st cbs := by
  induction pre with
  | nil =>
    intro post st cbs
    cases e with
    | stopAt80 => rfl
    | stopAtPoll => rfl
    | fault => simp [isStop] at he
    | success => simp [isStop] at he
  | cons a pre ih =>
    intro post st cbs
    cases a with
    | stopAt80 => rfl
    | stopAtPoll => rfl
    | fault =>
      simp only [List.cons_append, acquireLoop_fault_step]
      split
      · rfl
      · exact ih post _ cbs
    | success =>
      simp only [List.cons_append, acquireLoop_success_step]
      exact ih post _ (cbs + 1)

/-- Helper: if a script runs to its end without terminating, appending a stop
event makes the loop exit by the stop break, with the same callback count,
in the state of the last reinit-and-start with the exposure in flight. -/
theorem acquireLoop_reach_stop (e : IterEvent) (he : isStop e = true)
    (pre : List IterEvent) :
    ∀ (st : CamState) (cbs : Nat),
      (acquireLoop pre st cbs).exit = .scriptEnd →
      acquireLoop (pre ++ [e]) st cbs =
        ⟨(acquireLoop pre st cbs).callbacks, .stopBreak,
          { reinit (acquireLoop pre st cbs).final with exposing := true }⟩ := by
  induction pre with
  | nil =>
    intro st cbs _
    cases e with
    | stopAt80 => rfl
    | stopAtPoll => rfl
    | fault => simp [isStop] at he
    | success => simp [isStop] at he
  | cons a pre ih =>
    intro st cbs hend
    cases a with
    | stopAt80 => simp [acquireLoop_stop80_step] at hend
    | stopAtPoll => simp [acquireLoop_stopPoll_step] at hend
    | fault =>
      rw [acquireLoop_fault_step] at hend
      simp only [List.cons_append, acquireLoop_fault_step]
      split_ifs at hend ⊢ with h
      exact ih _ cbs hend
    | success =>
      rw [acquireLoop_success_step] at hend
      simp only [List.cons_append, acquireLoop_success_step]
      exact ih _ (cbs + 1) hend

/-- Invariant: a state whose buffer is allocated, or which is about to
reinitialise, keeps that property across the whole loop. -/
def camInv (st : CamState) : Prop := st.buffer = true ∨ st.needReinit = true

/-- Helper: the reinit-or-keep step yields an allocated buffer. -/
theorem reinit_buffer (st : CamState) (h : camInv st) : (reinit st).buffer = true := by
  unfold reinit
  by_cases hn : st.needReinit
  · rw [if_pos hn]
  · rw [if_neg hn]
    rcases h with h | h
    · exact h
    · exact absurd h (by simpa using hn)

/-- Helper: camInv is preserved by the acquire loop. -/
theorem acquireLoop_inv (pre : List IterEvent) :
    ∀ (st : CamState) (cbs : Nat), camInv st →
      camInv (acquireLoop pre st cbs).final := by
  induction pre with
  | nil => intro st cbs h; exact h
  | cons a pre ih =>
    intro st cbs h
    cases a with
    | stopAt80 =>
      left
      exact reinit_buffer st h
    | stopAtPoll =>
      left
      exact reinit_buffer st h
    | fault =>
      rw [acquireLoop_fault_step]
      split
      · left
        exact reinit_buffer st h
      · exact ih _ cbs (Or.inr rfl)
    | success =>
      rw [acquireLoop_success_step]
      exact ih _ (cbs + 1) (Or.inl (reinit_buffer st h))

/-- Claim C8: once a stop request is observed during the 80%-of-duration
cooperative wait or the bounded status poll, the loop exits via the stop
break with no further callback invocation (events after the stop are
irrelevant to the whole result), and the teardown aborts the in-flight
exposure, finishes and uninitialises the acquisition sequence, and releases
the acquisition lock. -/
theorem stop_request_terminates_loop (pre post : List IterEvent) (e : IterEvent)
    (he : isStop e = true)
    (hrun : (acquireLoop pre initCam 0).exit = .scriptEnd) :
    acquireLoop (pre ++ e :: post) initCam 0 = acquireLoop (pre ++ [e]) initCam 0 ∧
    (acquireLoop (pre ++ e :: post) initCam 0).exit = .stopBreak ∧
    (acquireLoop (pre ++ e :: post) initCam 0).callbacks
      = (acquireLoop pre initCam 0).callbacks ∧
    teardownOf (acquireLoop (pre ++ e :: post) initCam 0).final
      = ⟨true, true, true, true⟩ := by
  have htrunc := acquireLoop_stop_trunc e he pre post initCam 0
  have hreach := acquireLoop_reach_stop e he pre initCam 0 hrun
  have hbuf : (reinit (acquireLoop pre initCam 0).final).buffer = true :=
    reinit_buffer _ (acquireLoop_inv pre initCam 0 (Or.inr rfl))
  refine ⟨htrunc, ?_, ?_, ?_⟩
  · rw [htrunc, hreach]
  · rw [htrunc, hreach]
  · rw [htrunc, hreach]
    simp [teardownOf, hbuf]

/-- Witness for stop_request_terminates_loop: one successful frame, then a
stop observed during the 80% wait, with a later fault never reached. -/
theorem stop_request_terminates_loop_witness :
    isStop .stopAt80 = true ∧
    (acquireLoop [.success] initCam 0).exit = .scriptEnd ∧
    (acquireLoop ([.success] ++ .stopAt80 :: [.fault]) initCam 0
        = acquireLoop ([.success] ++ [.stopAt80]) initCam 0 ∧
      (acquireLoop ([.success] ++ .stopAt80 :: [.fault]) initCam 0).exit = .stopBreak ∧
      (acquireLoop ([.success] ++ .stopAt80 :: [.fault]) initCam 0).callbacks
        = (acquireLoop [.success] initCam 0).callbacks ∧
      teardownOf (acquireLoop ([.success] ++ .stopAt80 :: [.fault]) initCam 0).final
        = ⟨true, true, true, true⟩) :=
  ⟨rfl, rfl, stop_request_terminates_loop [.success] [.fault] .stopAt80 rfl rfl⟩

/-- Claim C7: cancelling the conversion-update future before it has finished
invokes the cancellers of all three sub-task futures unconditionally, waits
on the completion event with a 10 second timeout, and returns True
regardless; if the task has already finished, the canceller returns False
and leaves everything untouched. -/
theorem conversion_cancel_spec (f : ConvFuture) :
    (f.conversionUpdateState = .finished →
      CancelUpdateConversion f = ⟨false, f, none⟩) ∧
    (f.conversionUpdateState ≠ .finished →
      CancelUpdateConversion f = ⟨true, ⟨.cancelled, true, true, true⟩, some 10⟩) := by
  constructor
  · intro h
    rw [CancelUpdateConversion, if_pos h]
  · intro h
    rw [CancelUpdateConversion, if_neg h]

/-- Witness for conversion_cancel_spec on a finished and on a running task. -/
theorem conversion_cancel_spec_witness :
    CancelUpdateConversion ⟨.finished, false, false, false⟩
      = ⟨false, ⟨.finished, false, false, false⟩, none⟩ ∧
    CancelUpdateConversion ⟨.running, false, false, false⟩
      = ⟨true, ⟨.cancelled, true, true, true⟩, some 10⟩ :=
  ⟨(conversion_cancel_spec ⟨.finished, false, false, false⟩).1 rfl,
   (conversion_cancel_spec ⟨.running, false, false, false⟩).2 (by decide)⟩

/-- Helper: the dimensionless ratio distance / ERR_MARGIN at 8 ERR_MARGIN. -/
theorem log_ratio_eight : Real.log (8 * ERR_MARGIN / ERR_MARGIN) / Real.log 2 = 3 := by
  have hm : (ERR_MARGIN : ℝ) ≠ 0 := by norm_num [ERR_MARGIN]
  rw [mul_div_assoc, div_self hm, mul_one]
  have h8 : (8 : ℝ) = 2 ^ (3 : ℕ) := by norm_num
  rw [h8, Real.log_pow]
  have h2 : Real.log 2 ≠ 0 := ne_of_gt (Real.log_pos (by norm_num))
  rw [mul_div_assoc, div_self h2, mul_one]
  norm_num

/-- Helper: the computed step count is at least MAX_STEPS once distance is at
least 2 ^ MAX_STEPS times the error margin. -/
theorem log_ratio_ge (d : ℝ) (hd : 2 ^ MAX_STEPS * ERR_MARGIN ≤ d) :
    (MAX_STEPS : ℝ) ≤ Real.log (d / ERR_MARGIN) / Real.log 2 := by
  have hm : (0 : ℝ) < ERR_MARGIN := by norm_num [ERR_MARGIN]
  have h2 : (0 : ℝ) < Real.log 2 := Real.log_pos (by norm_num)
  have h1 : (2 : ℝ) ^ MAX_STEPS ≤ d / ERR_MARGIN := (le_div_iff₀ hm).2 hd
  rw [le_div_iff₀ h2]
  calc (MAX_STEPS : ℝ) * Real.log 2
      = Real.log (2 ^ MAX_STEPS) := (Real.log_pow 2 MAX_STEPS).symm
    _ ≤ Real.log (d / ERR_MARGIN) := Real.log_le_log (by positivity) h1

/-- Claim C9: the duration estimators use min(log2(dist / ERR_MARGIN),
MAX_STEPS) as step count: at dist = 8 ERR_MARGIN the step count is 3, so the
estimate is 3 * (et + 2), and at any distance of at least 2 ^ MAX_STEPS
times the margin the step count is clamped at MAX_STEPS = 10. -/
theorem estimator_step_counts (et d : ℝ) (hd : 2 ^ MAX_STEPS * ERR_MARGIN ≤ d) :
    estimateOffsetTime et (some (8 * ERR_MARGIN)) = 3 * (et + 2) ∧
    estimateHoleDetectionTime et (some (8 * ERR_MARGIN)) = 3 * (et + 2) ∧
    estimateOffsetTime et (some d) = 10 * (et + 2) ∧
    estimateHoleDetectionTime et (some d) = 10 * (et + 2) := by
  have hthree : min (Real.log (8 * ERR_MARGIN / ERR_MARGIN) / Real.log 2)
      ((MAX_STEPS : ℕ) : ℝ) = 3 := by
    rw [log_ratio_eight]
    exact min_eq_left (by norm_num [MAX_STEPS])
  have hclamp : min (Real.log (d / ERR_MARGIN) / Real.log 2)
      ((MAX_STEPS : ℕ) : ℝ) = 10 := by
    rw [min_eq_right (log_ratio_ge d hd)]
    norm_num [MAX_STEPS]
  refine ⟨?_, ?_, ?_, ?_⟩
  · show min (Real.log (8 * ERR_MARGIN / ERR_MARGIN) / Real.log 2)
        ((MAX_STEPS : ℕ) : ℝ) * (et + 2) = 3 * (et + 2)
    rw [hthree]
  · show min (Real.log (8 * ERR_MARGIN / ERR_MARGIN) / Real.log 2)
        ((MAX_STEPS : ℕ) : ℝ) * (et + 2) = 3 * (et + 2)
    rw [hthree]
  · show min (Real.log (d / ERR_MARGIN) / Real.log 2)
        ((MAX_STEPS : ℕ) : ℝ) * (et + 2) = 10 * (et + 2)
    rw [hclamp]
  · show min (Real.log (d / ERR_MARGIN) / Real.log 2)
        ((MAX_STEPS : ℕ) : ℝ) * (et + 2) = 10 * (et + 2)
    rw [hclamp]

/-- Witness for estimator_step_counts at et = 1 and the smallest clamped
distance. -/
theorem estimator_step_counts_witness :
    2 ^ MAX_STEPS * ERR_MARGIN ≤ 2 ^ MAX_STEPS * ERR_MARGIN ∧
    (estimateOffsetTime 1 (some (8 * ERR_MARGIN)) = 3 * (1 + 2) ∧
      estimateHoleDetectionTime 1 (some (8 * ERR_MARGIN)) = 3 * (1 + 2) ∧
      estimateOffsetTime 1 (some (2 ^ MAX_STEPS * ERR_MARGIN)) = 10 * (1 + 2) ∧
      estimateHoleDetectionTime 1 (some (2 ^ MAX_STEPS * ERR_MARGIN)) = 10 * (1 + 2)) :=
  ⟨le_refl _, estimator_step_counts 1 (2 ^ MAX_STEPS * ERR_MARGIN) (le_refl _)⟩

/-- Claim C10: _DoHoleDetection accumulates its results in the module-level
EXPECTED_HOLES tuple itself: after a run finding positions (p0, p1) the
tuple holds (p0, p1) — different from the configured constants whenever the
found positions differ — and a subsequent run first moves to those found
positions instead of the constants. -/
theorem hole_detection_mutates_expected_table (p0 p1 q0 q1 : HolePos)
    (hne : (p0, p1) ≠ EXPECTED_HOLES) :
    (DoHoleDetection EXPECTED_HOLES p0 p1).tableAfter = (p0, p1) ∧
    (DoHoleDetection EXPECTED_HOLES p0 p1).tableAfter ≠ EXPECTED_HOLES ∧
    (DoHoleDetection (DoHoleDetection EXPECTED_HOLES p0 p1).tableAfter q0 q1).moveTargets
      = [p0, p1] := by
  refine ⟨rfl, ?_, rfl⟩
  simpa using hne

/-- Witness for hole_detection_mutates_expected_table: a run that found both
holes 1 mm to the right of the configured positions. -/
theorem hole_detection_mutates_expected_table_witness :
    ((⟨1 / 1000, 11 / 1000⟩, ⟨1 / 1000, -(11 / 1000)⟩) :
        HolePos × HolePos) ≠ EXPECTED_HOLES ∧
    ((DoHoleDetection EXPECTED_HOLES ⟨1 / 1000, 11 / 1000⟩
          ⟨1 / 1000, -(11 / 1000)⟩).tableAfter
        = (⟨1 / 1000, 11 / 1000⟩, ⟨1 / 1000, -(11 / 1000)⟩) ∧
      (DoHoleDetection EXPECTED_HOLES ⟨1 / 1000, 11 / 1000⟩
          ⟨1 / 1000, -(11 / 1000)⟩).tableAfter ≠ EXPECTED_HOLES ∧
      (DoHoleDetection
          (DoHoleDetection EXPECTED_HOLES ⟨1 / 1000, 11 / 1000⟩
            ⟨1 / 1000, -(11 / 1000)⟩).tableAfter ⟨0, 0⟩ ⟨0, 0⟩).moveTargets
        = [⟨1 / 1000, 11 / 1000⟩, ⟨1 / 1000, -(11 / 1000)⟩]) :=
  ⟨by norm_num [EXPECTED_HOLES],
   hole_detection_mutates_expected_table ⟨1 / 1000, 11 / 1000⟩
     ⟨1 / 1000, -(11 / 1000)⟩ ⟨0, 0⟩ ⟨0, 0⟩ (by norm_num [EXPECTED_HOLES])⟩

end Odemis
